import Mathlib

/-!
Shallow embedding of the subscription-tracking engine and quote-dispatch
pipeline of the dogbro-index-api repository.

Sources embedded here:
* `src/trading/contract_manager.py` (`ContractManager`)
* `src/trading/market_data_handler.py` (`MarketDataHandler`)

Python floats are modelled by exact rationals (every price appearing in the
claims is either an integer or has an exactly representable binary quotient
at the rounding tie, so the float behaviour and the rational behaviour
coincide on all inputs considered).  Python sets of contract codes are
modelled by `Finset String`, dicts keyed by code by functions
`String → Option _`.  Provider calls that may raise are modelled by an
environment recording, per contract code, whether the call succeeds; the
sequence of calls the provider sees is returned as an explicit trace.
-/

namespace DogbroIndex

/-- A contract handle; only the exchange-assigned `code` is observable in the
logic of the manager. -/
structure Contract where
  code : String
deriving DecidableEq, Repr

/-- One call issued to the quote provider (`api.quote.subscribe` with kind
Tick or BidAsk, or `api.quote.unsubscribe`), recorded by the code of the
contract it concerns. -/
inductive QuoteCall where
  | subTick (code : String)
  | subBidAsk (code : String)
  | unsub (code : String)
deriving DecidableEq, Repr

/-- Environment of one refresh: the options directory of the provider
(`api.Contracts.Options`, looked up through `_safe_get_contract`, so a plain
partial map), and the per-code outcome of each kind of provider call
(`true` = the call returns normally, `false` = it raises). -/
structure ProviderEnv where
  directory : String → Option Contract
  subTickOk : String → Bool
  subBidAskOk : String → Bool
  unsubOk : String → Bool

/-- Mutable state of `ContractManager`: `_subscribed_contracts` and
`_contract_cache`. -/
structure CMState where
  subscribed : Finset String
  cache : String → Option Contract

/-- Embeds the Python builtin `round`: round half to even (bankers rounding). -/
def round_half_even (q : ℚ) : ℤ :=
  let f : ℤ := ⌊q⌋
  let r : ℚ := q - f
  if r < 1/2 then f
  else if 1/2 < r then f + 1
  else if f % 2 = 0 then f else f + 1

/-- Embeds `ContractManager._calculate_atm_strike`:
`round(price / self._strike_interval) * self._strike_interval`. -/
def calculate_atm_strike (price : ℚ) (strike_interval : ℤ) : ℤ :=
  round_half_even (price / (strike_interval : ℚ)) * strike_interval

/-- Embeds `ContractManager._calculate_target_strikes`: for
`i in range(-range_strikes, range_strikes + 1)` append
`atm_strike + i * interval` when it is `> 0`. -/
def calculate_target_strikes (atm_strike : ℤ) (range_strikes : ℕ)
    (strike_interval : ℤ) : List ℤ :=
  ((List.range (2 * range_strikes + 1)).map
      (fun i : ℕ => atm_strike + ((i : ℤ) - (range_strikes : ℤ)) * strike_interval)).filter
    (fun s => 0 < s)

/-- Embeds `ContractManager._build_contract_key`:
the key is the fixed prefix TXO, the strike in decimal, and a suffix C for call or P for put. -/
def build_contract_key (strike : ℤ) (option_type : String) : String :=
  "TXO" ++ toString strike ++ (if option_type = "call" then "C" else "P")

/-- Embeds `self._contract_cache[contract.code] = contract`. -/
def cache_insert (cache : String → Option Contract) (ctr : Contract) :
    String → Option Contract :=
  fun c => if c = ctr.code then some ctr else cache c

/-- Embeds `ContractManager._find_contracts_by_strikes`: for each strike, build the
lookup key, resolve it through `_safe_get_contract` against the options
directory; on a hit append the contract and cache it under its code, on a
miss (or lookup error) skip the strike.  Returns the found contracts and the
updated cache. -/
def find_contracts_by_strikes (directory : String → Option Contract)
    (option_type : String) :
    List ℤ → (String → Option Contract) → List Contract × (String → Option Contract)
  | [], cache => ([], cache)
  | strike :: rest, cache =>
    match directory (build_contract_key strike option_type) with
    | some ctr =>
      let r := find_contracts_by_strikes directory option_type rest (cache_insert cache ctr)
      (ctr :: r.1, r.2)
    | none => find_contracts_by_strikes directory option_type rest cache

/-- Embeds `ContractManager._subscribe_contracts`: on a non-empty list, issue a
Tick-kind and then a BidAsk-kind subscribe call for `contracts[0].code`
only; if either call raises, the surrounding `except` aborts the whole
method and *no* code is recorded; if both succeed, every code of the list is
added to `_subscribed_contracts`. -/
def subscribe_contracts (env : ProviderEnv) (s : Finset String) :
    List Contract → Finset String × List QuoteCall
  | [] => (s, [])
  | c0 :: rest =>
    if env.subTickOk c0.code then
      if env.subBidAskOk c0.code then
        ((c0 :: rest).foldl (fun a c => insert c.code a) s,
          [QuoteCall.subTick c0.code, QuoteCall.subBidAsk c0.code])
      else (s, [QuoteCall.subTick c0.code, QuoteCall.subBidAsk c0.code])
    else (s, [QuoteCall.subTick c0.code])

/-- Iteration order of a Python `set`; the source never depends on it, we
fix the sorted order of the codes. -/
def set_iter (s : Finset String) : List String :=
  s.sort (fun a b => a ≤ b)

/-- Embeds `ContractManager._unsubscribe_contracts`, iterating the given code list:
when the code is cached, call `api.quote.unsubscribe`; the `discard` that
follows is reached only if that call returns (on an exception the `except`
logs and continues with the next code, leaving the code in
`_subscribed_contracts`); when the code is not cached, no provider call is
made and the `discard` runs. -/
def unsubscribe_contracts (env : ProviderEnv) (cache : String → Option Contract) :
    List String → Finset String → Finset String × List QuoteCall
  | [], s => (s, [])
  | code :: rest, s =>
    match cache code with
    | some _ =>
      if env.unsubOk code then
        let r := unsubscribe_contracts env cache rest (s.erase code)
        (r.1, QuoteCall.unsub code :: r.2)
      else
        let r := unsubscribe_contracts env cache rest s
        (r.1, QuoteCall.unsub code :: r.2)
    | none =>
      unsubscribe_contracts env cache rest (s.erase code)

/-- Body of `ContractManager.update_subscriptions` after the target strike
list has been computed (lines 60-85 of the source): resolve the target
contracts, return early on an empty resolution, otherwise diff the code
sets and run the subscribe pass then the unsubscribe pass. -/
def update_with_strikes (env : ProviderEnv) (st : CMState)
    (target_strikes : List ℤ) (option_type : String) : CMState × List QuoteCall :=
  let found := find_contracts_by_strikes env.directory option_type target_strikes st.cache
  let target_contracts := found.1
  let cache1 := found.2
  if target_contracts = [] then ({ subscribed := st.subscribed, cache := cache1 }, [])
  else
    let target_codes : Finset String := (target_contracts.map Contract.code).toFinset
    let to_subscribe := target_codes \ st.subscribed
    let to_unsubscribe := st.subscribed \ target_codes
    let r1 :=
      if to_subscribe ≠ ∅ then
        subscribe_contracts env st.subscribed
          (target_contracts.filter (fun c => c.code ∈ to_subscribe))
      else (st.subscribed, [])
    let r2 :=
      if to_unsubscribe ≠ ∅ then
        unsubscribe_contracts env cache1 (set_iter to_unsubscribe) r1.1
      else (r1.1, [])
    ({ subscribed := r2.1, cache := cache1 }, r1.2 ++ r2.2)

/-- Embeds `ContractManager.update_subscriptions` (the operation the spec calls `refresh`): compute
the ATM strike from the current price, build the target strike window, then
run the resolution / diff / subscribe / unsubscribe body. -/
def update_subscriptions (env : ProviderEnv) (st : CMState) (current_price : ℚ)
    (range_strikes : ℕ) (option_type : String) (strike_interval : ℤ) :
    CMState × List QuoteCall :=
  update_with_strikes env st
    (calculate_target_strikes (calculate_atm_strike current_price strike_interval)
      range_strikes strike_interval) option_type

/-- Embeds `ContractManager.unsubscribe_all`: when something is subscribed, run the
unsubscribe pass over a snapshot copy of `_subscribed_contracts`. -/
def unsubscribe_all (env : ProviderEnv) (st : CMState) : CMState × List QuoteCall :=
  if st.subscribed ≠ ∅ then
    let r := unsubscribe_contracts env st.cache (set_iter st.subscribed) st.subscribed
    ({ subscribed := r.1, cache := st.cache }, r.2)
  else (st, [])

/-! ### Market-data handler (`src/trading/market_data_handler.py`) -/

/-- A Python attribute value as far as the handler observes it: a string or
a number. -/
inductive Val where
  | vstr (s : String)
  | vnum (q : ℚ)
deriving DecidableEq, Repr

/-- Python truthiness of the values above (`if not data.get(code)`). -/
def Val.truthy : Val → Bool
  | .vstr s => if s = "" then false else true
  | .vnum q => if q = 0 then false else true

/-- Truthiness of an optional value (`None` is falsy). -/
def truthy_opt : Option Val → Bool
  | none => false
  | some v => v.truthy

/-- A raw tick object.  `attrs a` is what `getattr(tick, a, None)` yields
when attribute access terminates normally (`none` models a missing
attribute, for which the default `None` is returned); `attrRaises a = true`
models a property whose read raises an exception that
the clause `except (AttributeError, TypeError)` of `_safe_getattr` does not catch, so
the exception escapes into the caller. -/
structure Tick where
  attrs : String → Option Val
  attrRaises : String → Bool

/-- Embeds `MarketDataHandler._safe_getattr tick attr` with default `None`. -/
def safe_getattr (tick : Tick) (attr : String) : Except Unit (Option Val) :=
  if tick.attrRaises attr then Except.error () else Except.ok (tick.attrs attr)

/-- The dict built by `MarketDataHandler._extract_tick_data`.  The source
dict key `open` is a Lean keyword, embedded as the field `open_`. -/
structure TickData where
  exchange : String
  code : Option Val
  datetime : Option Val
  open_ : Option Val
  high : Option Val
  low : Option Val
  close : Option Val
  price : Option Val
  volume : Option Val
  total_volume : Option Val
  timestamp : String
deriving DecidableEq, Repr

/-- Body of the `try` block of `_extract_tick_data`: the dict-literal
attribute reads in source order (`price` reads the `close` attribute a
second time), then the required-field check on `code`.  `now_iso` stands
for `datetime.now().isoformat()`. -/
def extract_tick_body (exchange : String) (now_iso : String) (tick : Tick) :
    Except Unit (Option TickData) :=
  (safe_getattr tick "code").bind fun code =>
  (safe_getattr tick "datetime").bind fun dt =>
  (safe_getattr tick "open").bind fun o =>
  (safe_getattr tick "high").bind fun hi =>
  (safe_getattr tick "low").bind fun lo =>
  (safe_getattr tick "close").bind fun cl =>
  (safe_getattr tick "close").bind fun pr =>
  (safe_getattr tick "volume").bind fun vol =>
  (safe_getattr tick "total_volume").bind fun tvol =>
  let data : TickData :=
    { exchange := exchange, code := code, datetime := dt, open_ := o, high := hi,
      low := lo, close := cl, price := pr, volume := vol, total_volume := tvol,
      timestamp := now_iso }
  if truthy_opt data.code then Except.ok (some data) else Except.ok none

/-- Embeds `MarketDataHandler._extract_tick_data`: the body above with its
`except Exception` returning `None`. -/
def extract_tick_data (exchange : String) (now_iso : String) (tick : Tick) :
    Option TickData :=
  match extract_tick_body exchange now_iso tick with
  | .ok r => r
  | .error _ => none

/-- Downstream sink as the handler observes it: `is_connected()` may return
a boolean or raise; `emit` raises iff `emitOk = false`. -/
structure GatewayEnv where
  connected : Except Unit Bool
  emitOk : Bool

/-- Mutable state of `MarketDataHandler` used by `handle_tick`: the
`_last_tick_time` dict, keyed by the `code` value of the payload. -/
structure HandlerState where
  last_tick_time : Val → Option ℚ

/-- Body of the `try` block of `MarketDataHandler.handle_tick`: extract
(returns early on a falsy payload), check `is_connected` (may raise),
`emit` of a `market_tick` event (may raise), then record the dispatch time
under the `code` value of the payload.  The second component lists the
payloads delivered to the sink.  `now_ts` stands for
`datetime.now().timestamp()`. -/
def handle_tick_body (gw : GatewayEnv) (exchange : String) (tick : Tick)
    (now_iso : String) (now_ts : ℚ) (st : HandlerState) :
    Except Unit (HandlerState × List TickData) :=
  match extract_tick_data exchange now_iso tick with
  | none => Except.ok (st, [])
  | some data =>
    gw.connected.bind fun conn =>
      if conn = false then Except.ok (st, [])
      else if gw.emitOk = false then Except.error ()
      else
        let contract_code := data.code.getD (Val.vstr "unknown")
        Except.ok
          ({ last_tick_time := fun c =>
              if c = contract_code then some now_ts else st.last_tick_time c },
            [data])

/-- Embeds `MarketDataHandler.handle_tick`: the body above wrapped in the outer
`except Exception` that logs and swallows, leaving the handler state as it
was (the dispatch-time update is the last step, so a raise never reaches
it). -/
def handle_tick (gw : GatewayEnv) (exchange : String) (tick : Tick)
    (now_iso : String) (now_ts : ℚ) (st : HandlerState) :
    HandlerState × List TickData :=
  match handle_tick_body gw exchange tick now_iso now_ts st with
  | .ok r => r
  | .error _ => (st, [])

/-! ### Helper lemmas -/

/-- A code survives one unsubscribe pass iff it was in the set and is either
not iterated over, or is cached with a raising provider call (the `discard`
after the call is then skipped). -/
lemma mem_unsubscribe_contracts (env : ProviderEnv)
    (cache : String → Option Contract) (codes : List String) (s : Finset String)
    (c : String) :
    c ∈ (unsubscribe_contracts env cache codes s).1 ↔
      c ∈ s ∧ (c ∉ codes ∨ ((cache c).isSome ∧ env.unsubOk c = false)) := by
  induction codes generalizing s with
  | nil => simp [unsubscribe_contracts]
  | cons hd tl ih =>
    rcases hcc : cache hd with _ | ctr
    · by_cases hc : c = hd
      · subst hc
        simp [unsubscribe_contracts, hcc, ih, hcc]
      · simp [unsubscribe_contracts, hcc, ih, Finset.mem_erase, hc, Ne.symm hc,
          List.mem_cons]
    · by_cases hok : env.unsubOk hd
      · by_cases hc : c = hd
        · subst hc
          simp [unsubscribe_contracts, hcc, hok, ih, hcc]
        · simp [unsubscribe_contracts, hcc, hok, ih, Finset.mem_erase, hc,
            Ne.symm hc, List.mem_cons]
      · by_cases hc : c = hd
        · subst hc
          simp [unsubscribe_contracts, hcc, hok, ih, hcc,
            Bool.not_eq_true] at *
        · simp [unsubscribe_contracts, hcc, hok, ih, hc, List.mem_cons]

/-- The unsubscribe pass only removes codes. -/
lemma mem_of_mem_unsubscribe_contracts (env : ProviderEnv)
    (cache : String → Option Contract) (codes : List String) (s : Finset String)
    (c : String) (h : c ∈ (unsubscribe_contracts env cache codes s).1) : c ∈ s :=
  ((mem_unsubscribe_contracts env cache codes s c).1 h).1

/-- Membership after folding `subscribed.add(contract.code)` over a list. -/
lemma mem_foldl_insert_code (l : List Contract) (s : Finset String) (c : String) :
    c ∈ l.foldl (fun a k => insert k.code a) s ↔ c ∈ s ∨ ∃ k ∈ l, k.code = c := by
  induction l generalizing s with
  | nil => simp
  | cons hd tl ih =>
    simp [List.foldl_cons, ih, Finset.mem_insert, eq_comm (a := c)]
    tauto

/-- A code present after the subscribe pass was present before or belongs to
one of the listed contracts. -/
lemma mem_subscribe_contracts (env : ProviderEnv) (s : Finset String)
    (l : List Contract) (c : String)
    (h : c ∈ (subscribe_contracts env s l).1) : c ∈ s ∨ ∃ k ∈ l, k.code = c := by
  cases l with
  | nil => exact Or.inl (by simpa [subscribe_contracts] using h)
  | cons c0 rest =>
    by_cases h1 : env.subTickOk c0.code
    · by_cases h2 : env.subBidAskOk c0.code
      · have := (mem_foldl_insert_code (c0 :: rest) s c).1
          (by simpa [subscribe_contracts, h1, h2] using h)
        exact this
      · exact Or.inl (by simpa [subscribe_contracts, h1, h2] using h)
    · exact Or.inl (by simpa [subscribe_contracts, h1] using h)

/-- When both provider subscribe calls succeed, the subscribe pass records
exactly the codes of the given contracts. -/
lemma subscribe_contracts_all_ok (env : ProviderEnv) (s : Finset String)
    (l : List Contract) (h1 : ∀ c, env.subTickOk c = true)
    (h2 : ∀ c, env.subBidAskOk c = true) :
    (subscribe_contracts env s l).1 = s ∪ (l.map Contract.code).toFinset := by
  cases l with
  | nil => simp [subscribe_contracts]
  | cons c0 rest =>
    ext c
    simp [subscribe_contracts, h1, h2, mem_foldl_insert_code, List.mem_map,
      eq_comm (a := c)]
    tauto

/-- The list returned by `_find_contracts_by_strikes` does not depend on the
incoming cache. -/
lemma find_fst_cache_independent (directory : String → Option Contract)
    (t : String) (strikes : List ℤ) (c1 c2 : String → Option Contract) :
    (find_contracts_by_strikes directory t strikes c1).1 =
      (find_contracts_by_strikes directory t strikes c2).1 := by
  induction strikes generalizing c1 c2 with
  | nil => rfl
  | cons hd tl ih =>
    simp only [find_contracts_by_strikes]
    rcases directory (build_contract_key hd t) with _ | ctr
    · exact ih c1 c2
    · simpa using ih (cache_insert c1 ctr) (cache_insert c2 ctr)

/-- The cache only grows during contract resolution. -/
lemma find_cache_monotone (directory : String → Option Contract) (t : String)
    (strikes : List ℤ) (cache : String → Option Contract) (c : String)
    (h : (cache c).isSome = true) :
    ((find_contracts_by_strikes directory t strikes cache).2 c).isSome = true := by
  induction strikes generalizing cache with
  | nil => exact h
  | cons hd tl ih =>
    simp only [find_contracts_by_strikes]
    rcases directory (build_contract_key hd t) with _ | ctr
    · exact ih cache h
    · refine ih (cache_insert cache ctr) ?_
      by_cases hc : c = ctr.code <;> simp [cache_insert, hc, h]

/-- Every contract returned by `_find_contracts_by_strikes` has been cached
under its code in the returned cache. -/
lemma find_mem_cached (directory : String → Option Contract) (t : String)
    (strikes : List ℤ) (cache : String → Option Contract) (ctr : Contract)
    (h : ctr ∈ (find_contracts_by_strikes directory t strikes cache).1) :
    ((find_contracts_by_strikes directory t strikes cache).2 ctr.code).isSome = true := by
  induction strikes generalizing cache with
  | nil => simp [find_contracts_by_strikes] at h
  | cons hd tl ih =>
    simp only [find_contracts_by_strikes] at h ⊢
    rcases hdir : directory (build_contract_key hd t) with _ | c0
    · rw [hdir] at h
      exact ih cache h
    · rw [hdir] at h
      simp only [List.mem_cons] at h
      rcases h with h | h
      · subst h
        exact find_cache_monotone directory t tl (cache_insert cache ctr)
          ctr.code (by simp [cache_insert])
      · exact ih (cache_insert cache c0) h

/-- Resolution against an everywhere-empty options directory finds nothing
and leaves the cache untouched. -/
lemma find_contracts_none (t : String) (strikes : List ℤ)
    (cache : String → Option Contract) :
    find_contracts_by_strikes (fun _ => none) t strikes cache = ([], cache) := by
  induction strikes with
  | nil => rfl
  | cons hd tl ih => simpa [find_contracts_by_strikes] using ih

/-- When the resolution comes back empty, `update_subscriptions` takes the
early-return branch: the subscribed set is untouched and no provider call is
made. -/
lemma update_with_strikes_empty (env : ProviderEnv) (st : CMState)
    (strikes : List ℤ) (t : String)
    (h : (find_contracts_by_strikes env.directory t strikes st.cache).1 = []) :
    update_with_strikes env st strikes t =
      ({ subscribed := st.subscribed,
         cache := (find_contracts_by_strikes env.directory t strikes st.cache).2 }, []) := by
  unfold update_with_strikes
  simp [h]

/-- After a refresh in which the resolution is non-empty and every provider
call succeeds, the subscribed set is exactly the set of resolved codes. -/
lemma update_with_strikes_all_ok_subscribed (env : ProviderEnv) (st : CMState)
    (strikes : List ℤ) (t : String)
    (h1 : ∀ c, env.subTickOk c = true) (h2 : ∀ c, env.subBidAskOk c = true)
    (h3 : ∀ c, env.unsubOk c = true)
    (hne : (find_contracts_by_strikes env.directory t strikes st.cache).1 ≠ []) :
    (update_with_strikes env st strikes t).1.subscribed =
      ((find_contracts_by_strikes env.directory t strikes st.cache).1.map
          Contract.code).toFinset := by
  classical
  unfold update_with_strikes
  rw [if_neg hne]
  set L := (find_contracts_by_strikes env.directory t strikes st.cache).1 with hL
  set T : Finset String := (L.map Contract.code).toFinset with hT
  set S := st.subscribed with hS
  have hfilter :
      ((L.filter (fun c => c.code ∈ T \ S)).map Contract.code).toFinset = T \ S := by
    ext c
    simp only [List.mem_toFinset, List.mem_map, List.mem_filter,
      decide_eq_true_eq]
    constructor
    · rintro ⟨k, ⟨hkL, hkT⟩, rfl⟩
      exact hkT
    · intro hc
      have hcT : c ∈ T := (Finset.mem_sdiff.1 hc).1
      rw [hT] at hcT
      simp only [List.mem_toFinset, List.mem_map] at hcT
      obtain ⟨k, hkL, hkc⟩ := hcT
      exact ⟨k, ⟨hkL, by rw [hkc]; exact hc⟩, hkc⟩
  have step1 :
      (if T \ S ≠ ∅ then
          subscribe_contracts env S (L.filter (fun c => c.code ∈ T \ S))
        else (S, [])).1 = S ∪ T := by
    by_cases hsub : T \ S = ∅
    · rw [if_neg (by simpa using hsub)]
      have hTS : T ⊆ S := by
        intro x hx
        by_contra hxS
        exact (Finset.eq_empty_iff_forall_not_mem.1 hsub x)
          (Finset.mem_sdiff.2 ⟨hx, hxS⟩)
      exact (Finset.union_eq_left.2 hTS).symm
    · rw [if_pos hsub, subscribe_contracts_all_ok env S _ h1 h2, hfilter,
        Finset.union_sdiff_self_eq_union]
  simp only []
  rw [step1]
  by_cases huns : S \ T = ∅
  · rw [if_neg (by simpa using huns)]
    have hST : S ⊆ T := by
      intro x hx
      by_contra hxT
      exact (Finset.eq_empty_iff_forall_not_mem.1 huns x)
        (Finset.mem_sdiff.2 ⟨hx, hxT⟩)
    exact Finset.union_eq_right.2 hST
  · rw [if_pos huns]
    ext c
    rw [mem_unsubscribe_contracts]
    simp only [set_iter, Finset.mem_sort, Finset.mem_sdiff, Finset.mem_union,
      h3, Bool.true_eq_false, and_false, or_false]
    by_cases hcS : c ∈ S <;> by_cases hcT : c ∈ T <;> tauto

/-- Lemma: `unsubscribe_all` leaves behind exactly the codes whose provider unsubscribe call
raised on a cached contract. -/
lemma unsubscribe_all_subscribed (env : ProviderEnv) (st : CMState) :
    (unsubscribe_all env st).1.subscribed =
      st.subscribed.filter
        (fun c => (st.cache c).isSome = true ∧ env.unsubOk c = false) := by
  classical
  unfold unsubscribe_all
  by_cases h : st.subscribed = ∅
  · simp [h]
  · rw [if_pos h]
    ext c
    rw [mem_unsubscribe_contracts]
    simp only [set_iter, Finset.mem_sort, Finset.mem_filter]
    tauto

/-- Strike-window membership: exactly the positive strikes one window step
apart from the ATM strike. -/
lemma mem_calculate_target_strikes (atm : ℤ) (N : ℕ) (interval : ℤ) (s : ℤ) :
    s ∈ calculate_target_strikes atm N interval ↔
      (∃ k : ℤ, -(N : ℤ) ≤ k ∧ k ≤ N ∧ s = atm + k * interval) ∧ 0 < s := by
  unfold calculate_target_strikes
  rw [List.mem_filter, List.mem_map]
  constructor
  · rintro ⟨⟨i, hi, rfl⟩, hdec⟩
    rw [List.mem_range] at hi
    have hpos : 0 < atm + ((i : ℤ) - N) * interval := by simpa using hdec
    exact ⟨⟨(i : ℤ) - N, by omega, by omega, rfl⟩, hpos⟩
  · rintro ⟨⟨k, hk1, hk2, rfl⟩, hpos⟩
    refine ⟨⟨(k + N).toNat, List.mem_range.2 (by omega), ?_⟩, by simpa using hpos⟩
    have hcast : (((k + (N : ℤ)).toNat : ℤ)) - (N : ℤ) = k := by omega
    rw [hcast]

/-! ### Concrete fixtures for witnesses and counterexamples -/

def ctrA : Contract := ⟨"A"⟩
def ctrD : Contract := ⟨"D"⟩
def ctrE : Contract := ⟨"E"⟩
def ctrX : Contract := ⟨"X"⟩

/-- Options directory holding call contracts `D` at strike 100 and `E` at
strike 200. -/
def dir_DE : String → Option Contract := fun k =>
  if k = "TXO100C" then some ctrD else if k = "TXO200C" then some ctrE else none

/-- Options directory holding only the call contract `D` at strike 200. -/
def dir_D : String → Option Contract := fun k =>
  if k = "TXO200C" then some ctrD else none

/-- Provider on which every call succeeds, over `dir_DE`. -/
def env_all_ok : ProviderEnv :=
  ⟨dir_DE, fun _ => true, fun _ => true, fun _ => true⟩

/-- Provider whose `unsubscribe` always raises; empty directory. -/
def env_unsub_fails : ProviderEnv :=
  ⟨fun _ => none, fun _ => true, fun _ => true, fun _ => false⟩

/-- Provider over `dir_D` whose `unsubscribe` always raises. -/
def env_C7 : ProviderEnv :=
  ⟨dir_D, fun _ => true, fun _ => true, fun _ => false⟩

/-- Provider with an empty directory on which every call succeeds. -/
def env_dir_none : ProviderEnv :=
  ⟨fun _ => none, fun _ => true, fun _ => true, fun _ => true⟩

def cache_A : String → Option Contract := fun c => if c = "A" then some ctrA else none

def cache_XD : String → Option Contract :=
  fun c => if c = "X" then some ctrX else if c = "D" then some ctrD else none

def st_empty : CMState := ⟨∅, fun _ => none⟩
def st_A : CMState := ⟨{"A"}, cache_A⟩
def st_XD : CMState := ⟨{"X", "D"}, cache_XD⟩

lemma set_iter_singleton (a : String) : set_iter {a} = [a] :=
  Finset.sort_singleton _ a

/-- A refresh whose resolved code set already equals the subscribed set
issues no provider call. -/
lemma update_with_strikes_no_diff (env : ProviderEnv) (st : CMState)
    (strikes : List ℤ) (t : String)
    (hT : ((find_contracts_by_strikes env.directory t strikes st.cache).1.map
        Contract.code).toFinset = st.subscribed) :
    (update_with_strikes env st strikes t).2 = [] := by
  by_cases hne : (find_contracts_by_strikes env.directory t strikes st.cache).1 = []
  · rw [update_with_strikes_empty env st strikes t hne]
  · unfold update_with_strikes
    rw [if_neg hne]
    simp only []
    rw [hT]
    simp

/-- Python `round(200 / 100) * 100`. -/
lemma atm_at_200 : calculate_atm_strike 200 100 = 200 := by
  unfold calculate_atm_strike round_half_even
  norm_num

/-- The computed strike window for price 200, `N = 0`, interval 100. -/
lemma strikes_at_200 :
    calculate_target_strikes (calculate_atm_strike 200 100) 0 100 = [200] := by
  rw [atm_at_200]
  decide

/-- The computed strike window for price 200, `N = 1`, interval 100. -/
lemma strikes_at_200_w1 :
    calculate_target_strikes (calculate_atm_strike 200 100) 1 100 = [100, 200, 300] := by
  rw [atm_at_200]
  decide

/-- Evaluation of one refresh against `env_C7` from any state subscribed to
`{X, D}` whose cache resolves `X`: the single resolved contract `D` is
already subscribed, the stale `X` gets one (raising) unsubscribe call and
survives it. -/
lemma update_C7_eval (st : CMState) (hs : st.subscribed = {"X", "D"})
    (hcX : st.cache "X" = some ctrX) :
    update_with_strikes env_C7 st [200] "call" =
      ({ subscribed := {"X", "D"}, cache := cache_insert st.cache ctrD },
        [QuoteCall.unsub "X"]) := by
  have hfind : find_contracts_by_strikes env_C7.directory "call" [200] st.cache =
      ([ctrD], cache_insert st.cache ctrD) := rfl
  have e4 : cache_insert st.cache ctrD "X" = some ctrX := by
    unfold cache_insert
    rw [if_neg (by decide : ¬(("X" : String) = ctrD.code))]
    exact hcX
  have e5 : unsubscribe_contracts env_C7 (cache_insert st.cache ctrD) ["X"]
      ({"X", "D"} : Finset String) = ({"X", "D"}, [QuoteCall.unsub "X"]) := by
    simp [unsubscribe_contracts, e4, env_C7]
  unfold update_with_strikes
  rw [hfind]
  simp only []
  rw [if_neg (by decide : ¬(([ctrD] : List Contract) = [])), hs]
  rw [show (List.map Contract.code [ctrD]).toFinset = ({"D"} : Finset String) from rfl]
  rw [show ({"D"} : Finset String) \ {"X", "D"} = ∅ by decide]
  rw [show ({"X", "D"} : Finset String) \ {"D"} = {"X"} by decide]
  rw [if_neg (by simp : ¬((∅ : Finset String) ≠ ∅))]
  rw [if_pos (by decide : ({"X"} : Finset String) ≠ ∅)]
  rw [set_iter_singleton]
  simp only []
  rw [e5]
  rfl

/-! ### Claims -/

/-- Claim C1, code_bug evaluation.  The spec and the test of the repository itself,
`test_calculate_atm_strike` require half-away-from-zero rounding
(`[17900, 18000, 18000, 18100, 18400, 18500]`), but
`_calculate_atm_strike` uses the Python builtin `round`, which rounds half
to even: on the six spec inputs with `strike_interval = 100` the code
produces `[17800, 18000, 18000, 18000, 18400, 18400]`, so the tie inputs
17850, 18050 and 18450 round down, contradicting the claim. -/
theorem atm_strike_uses_bankers_rounding :
    ([17850, 17950, 18000, 18050, 18449, 18450] : List ℚ).map
        (fun p => calculate_atm_strike p 100) =
      [17800, 18000, 18000, 18000, 18400, 18400] := by
  have h1 : calculate_atm_strike 17850 100 = 17800 := by
    unfold calculate_atm_strike round_half_even; norm_num
  have h2 : calculate_atm_strike 17950 100 = 18000 := by
    unfold calculate_atm_strike round_half_even; norm_num
  have h3 : calculate_atm_strike 18000 100 = 18000 := by
    unfold calculate_atm_strike round_half_even; norm_num
  have h4 : calculate_atm_strike 18050 100 = 18000 := by
    unfold calculate_atm_strike round_half_even; norm_num
  have h5 : calculate_atm_strike 18449 100 = 18400 := by
    unfold calculate_atm_strike round_half_even; norm_num
  have h6 : calculate_atm_strike 18450 100 = 18400 := by
    unfold calculate_atm_strike round_half_even; norm_num
  simp [h1, h2, h3, h4, h5, h6]

/-- Claim C5, confirmed.  The target strike list is the window
`{atm + k·interval | k ∈ [-N, N]}` restricted to positive strikes, has at
most `2N+1` elements, every element is a positive multiple of the interval
(for an ATM strike that is itself a multiple), and on `atm = 100, N = 2,
interval = 100` it evaluates to `[100, 200, 300]`. -/
theorem target_strikes_window (atm : ℤ) (N : ℕ) (interval : ℤ)
    (hdvd : interval ∣ atm) :
    (calculate_target_strikes atm N interval).length ≤ 2 * N + 1 ∧
      (∀ s : ℤ, s ∈ calculate_target_strikes atm N interval ↔
        (∃ k : ℤ, -(N : ℤ) ≤ k ∧ k ≤ N ∧ s = atm + k * interval) ∧ 0 < s) ∧
      (∀ s ∈ calculate_target_strikes atm N interval, 0 < s ∧ interval ∣ s) ∧
      calculate_target_strikes 100 2 100 = [100, 200, 300] := by
  refine ⟨?_, mem_calculate_target_strikes atm N interval, ?_, by decide⟩
  · unfold calculate_target_strikes
    exact (List.length_filter_le _ _).trans
      (by rw [List.length_map, List.length_range])
  · intro s hs
    obtain ⟨⟨k, _, _, rfl⟩, hpos⟩ := (mem_calculate_target_strikes atm N interval s).1 hs
    exact ⟨hpos, dvd_add hdvd (dvd_mul_left interval k)⟩

/-- Witness for C5 at spec scenario S2 (`atm = 18000`, `N = 3`,
`interval = 100`). -/
theorem target_strikes_window_witness :
    (100 : ℤ) ∣ 18000 ∧ (calculate_target_strikes 18000 3 100).length ≤ 2 * 3 + 1 :=
  ⟨⟨180, by norm_num⟩, (target_strikes_window 18000 3 100 ⟨180, by norm_num⟩).1⟩

/-- Claim C6, confirmed.  When the resolution produces no contracts, the
refresh logs and returns: the subscribed set is exactly what it was and the
provider sees no subscribe or unsubscribe call. -/
theorem refresh_empty_resolution_frame (env : ProviderEnv) (st : CMState)
    (price : ℚ) (N : ℕ) (t : String) (interval : ℤ)
    (h : (find_contracts_by_strikes env.directory t
        (calculate_target_strikes (calculate_atm_strike price interval) N interval)
        st.cache).1 = []) :
    (update_subscriptions env st price N t interval).1.subscribed = st.subscribed ∧
      (update_subscriptions env st price N t interval).2 = [] := by
  unfold update_subscriptions
  rw [update_with_strikes_empty env st _ t h]
  exact ⟨rfl, rfl⟩

/-- Witness for C6: empty directory, one subscribed contract. -/
theorem refresh_empty_resolution_frame_witness :
    (find_contracts_by_strikes env_dir_none.directory "call"
        (calculate_target_strikes (calculate_atm_strike 18000 100) 8 100)
        st_A.cache).1 = [] ∧
      (update_subscriptions env_dir_none st_A 18000 8 "call" 100).1.subscribed =
        st_A.subscribed ∧
      (update_subscriptions env_dir_none st_A 18000 8 "call" 100).2 = [] := by
  have h : (find_contracts_by_strikes env_dir_none.directory "call"
      (calculate_target_strikes (calculate_atm_strike 18000 100) 8 100)
      st_A.cache).1 = [] := by
    show (find_contracts_by_strikes (fun _ => none) "call" _ st_A.cache).1 = []
    rw [find_contracts_none]
  exact ⟨h, refresh_empty_resolution_frame env_dir_none st_A 18000 8 "call" 100 h⟩

/-- One full refresh against `env_C7` from `st_XD`: the target resolves to
the already-subscribed `D`, so no subscribe call is issued (vacuously, all
subscribe calls succeed), and the stale `X` receives one unsubscribe call
which raises, leaving `X` subscribed. -/
lemma refresh_C7_first :
    update_subscriptions env_C7 st_XD 200 0 "call" 100 =
      ({ subscribed := {"X", "D"}, cache := cache_insert cache_XD ctrD },
        [QuoteCall.unsub "X"]) := by
  unfold update_subscriptions
  rw [strikes_at_200]
  exact update_C7_eval st_XD rfl rfl

/-- Claim C7, counterexample.  With the directory holding only contract `D`
(strike 200) and the provider unsubscribe raising, a first
`refresh(200, 0, call)` from `subscribed = {X, D}` completes with every
subscribe call succeeding (none is needed), yet the second identical
refresh still issues a provider call (the retried `unsubscribe(X)`): the
claimed "no subscribe and no unsubscribe calls on the second invocation"
fails. -/
theorem refresh_twice_counterexample :
    (∀ c, env_C7.subTickOk c = true) ∧ (∀ c, env_C7.subBidAskOk c = true) ∧
      (update_subscriptions env_C7 st_XD 200 0 "call" 100).2 =
        [QuoteCall.unsub "X"] ∧
      (update_subscriptions env_C7
          (update_subscriptions env_C7 st_XD 200 0 "call" 100).1
          200 0 "call" 100).2 ≠ [] := by
  refine ⟨fun _ => rfl, fun _ => rfl, by rw [refresh_C7_first], ?_⟩
  rw [refresh_C7_first]
  unfold update_subscriptions
  rw [strikes_at_200]
  rw [update_C7_eval _ rfl rfl]
  simp

/-- Claim C7 as amended (corrected).  If a first `refresh(p, N, t)`
completes with every provider call (subscribe *and* unsubscribe)
succeeding and the directory is unchanged, the second identical refresh
issues no provider call at all. -/
theorem refresh_twice_no_calls_on_success (env : ProviderEnv) (st : CMState)
    (price : ℚ) (N : ℕ) (t : String) (interval : ℤ)
    (h1 : ∀ c, env.subTickOk c = true) (h2 : ∀ c, env.subBidAskOk c = true)
    (h3 : ∀ c, env.unsubOk c = true) :
    (update_subscriptions env (update_subscriptions env st price N t interval).1
        price N t interval).2 = [] := by
  unfold update_subscriptions
  set strikes :=
    calculate_target_strikes (calculate_atm_strike price interval) N interval with hstr
  set st1 := (update_with_strikes env st strikes t).1 with hst1
  by_cases hne : (find_contracts_by_strikes env.directory t strikes st.cache).1 = []
  · have hlist2 : (find_contracts_by_strikes env.directory t strikes st1.cache).1 = [] := by
      rw [find_fst_cache_independent env.directory t strikes st1.cache st.cache, hne]
    rw [update_with_strikes_empty env st1 strikes t hlist2]
  · apply update_with_strikes_no_diff
    have hsub1 : st1.subscribed =
        ((find_contracts_by_strikes env.directory t strikes st.cache).1.map
          Contract.code).toFinset := by
      rw [hst1]
      exact update_with_strikes_all_ok_subscribed env st strikes t h1 h2 h3 hne
    rw [find_fst_cache_independent env.directory t strikes st1.cache st.cache, hsub1]

/-- Witness for the amended C7: all-success provider over `dir_DE`,
starting from the empty state. -/
theorem refresh_twice_no_calls_on_success_witness :
    (∀ c, env_all_ok.subTickOk c = true) ∧
      (update_subscriptions env_all_ok
          (update_subscriptions env_all_ok st_empty 200 1 "call" 100).1
          200 1 "call" 100).2 = [] :=
  ⟨fun _ => rfl,
    refresh_twice_no_calls_on_success env_all_ok st_empty 200 1 "call" 100
      (fun _ => rfl) (fun _ => rfl) (fun _ => rfl)⟩

/-- Claim C2, code_bug evaluation.  With two resolvable new contracts `D`
(strike 100) and `E` (strike 200) and an all-success provider, a refresh
from the empty state issues exactly one Tick and one BidAsk subscribe call,
both for `D` only — `_subscribe_contracts` looks up `contracts[0]` for both
calls — yet records *both* `D` and `E` as subscribed.  The claimed
"one tick-kind and one bidask-kind call per code in `to_add`, per-code
success insertion" does not hold. -/
theorem subscribe_only_first_contract :
    (update_subscriptions env_all_ok st_empty 200 1 "call" 100).2 =
        [QuoteCall.subTick "D", QuoteCall.subBidAsk "D"] ∧
      (update_subscriptions env_all_ok st_empty 200 1 "call" 100).1.subscribed =
        {"D", "E"} := by
  unfold update_subscriptions
  rw [strikes_at_200_w1]
  exact ⟨by decide, by decide⟩

/-- Evaluation of `unsubscribe_all` on one subscribed, cached contract `A`
whose provider unsubscribe raises. -/
lemma unsubscribe_all_A_eval :
    unsubscribe_all env_unsub_fails st_A =
      ({ subscribed := {"A"}, cache := cache_A }, [QuoteCall.unsub "A"]) := by
  unfold unsubscribe_all
  rw [if_pos (by decide : st_A.subscribed ≠ (∅ : Finset String))]
  simp only []
  rw [show st_A.subscribed = ({"A"} : Finset String) from rfl, set_iter_singleton,
    show st_A.cache = cache_A from rfl,
    (by decide : unsubscribe_contracts env_unsub_fails cache_A ["A"] {"A"} =
      ({"A"}, [QuoteCall.unsub "A"]))]

/-- Claim C3, counterexample.  `unsubscribe_all` on `subscribed = {A}` with a
cached handle and a raising provider issues the unsubscribe call for `A`,
but `A` is *not* removed from the subscribed set: the `discard` sits inside
the `try`, after the provider call, so a raise skips it. -/
theorem unsub_code_kept_on_raise :
    (unsubscribe_all env_unsub_fails st_A).2 = [QuoteCall.unsub "A"] ∧
      "A" ∈ (unsubscribe_all env_unsub_fails st_A).1.subscribed := by
  rw [unsubscribe_all_A_eval]
  exact ⟨rfl, by decide⟩

/-- Claim C3 as amended (corrected).  A code processed by an unsubscribe
pass survives in `subscribed` exactly when it was subscribed, cached, and
the provider unsubscribe call raised; when the call returns (or no call
is made because the code is not cached), the code is removed. -/
theorem unsub_removal_requires_call_return (env : ProviderEnv)
    (cache : String → Option Contract) (codes : List String) (s : Finset String)
    (c : String) (hc : c ∈ codes) :
    c ∈ (unsubscribe_contracts env cache codes s).1 ↔
      c ∈ s ∧ (cache c).isSome = true ∧ env.unsubOk c = false := by
  rw [mem_unsubscribe_contracts]
  constructor
  · rintro ⟨hs, h | h⟩
    · exact absurd hc h
    · exact ⟨hs, h⟩
  · rintro ⟨hs, h1, h2⟩
    exact ⟨hs, Or.inr ⟨h1, h2⟩⟩

/-- Witness for the amended C3 at a concrete raising unsubscribe. -/
theorem unsub_removal_requires_call_return_witness :
    ("A" : String) ∈ ["A"] ∧
      ("A" ∈ (unsubscribe_contracts env_unsub_fails cache_A ["A"] {"A"}).1 ↔
        "A" ∈ ({"A"} : Finset String) ∧ (cache_A "A").isSome = true ∧
          env_unsub_fails.unsubOk "A" = false) :=
  ⟨by decide,
    unsub_removal_requires_call_return env_unsub_fails cache_A ["A"] {"A"} "A"
      (by decide)⟩

/-- Claim C4, counterexample.  When the provider unsubscribe raises for the
cached subscribed code `A`, `unsubscribe_all()` returns with
`subscribed = {A}`, not `∅`. -/
theorem unsubscribe_all_not_empty_on_raise :
    (unsubscribe_all env_unsub_fails st_A).1.subscribed = {"A"} := by
  rw [unsubscribe_all_A_eval]

/-- Claim C4 as amended (corrected).  After `unsubscribe_all()`, the
subscribed set holds exactly the codes whose cached provider
unsubscribe call raised; in particular it is empty whenever every
unsubscribe call succeeds. -/
theorem unsubscribe_all_residual (env : ProviderEnv) (st : CMState) :
    (unsubscribe_all env st).1.subscribed =
        st.subscribed.filter
          (fun c => (st.cache c).isSome = true ∧ env.unsubOk c = false) ∧
      ((∀ c, env.unsubOk c = true) → (unsubscribe_all env st).1.subscribed = ∅) := by
  classical
  refine ⟨unsubscribe_all_subscribed env st, fun h => ?_⟩
  rw [unsubscribe_all_subscribed]
  ext c
  simp [h]

/-- Witness for the amended C4: all-success provider empties the set. -/
theorem unsubscribe_all_residual_witness :
    (∀ c, env_all_ok.unsubOk c = true) ∧
      (unsubscribe_all env_all_ok st_A).1.subscribed = ∅ :=
  ⟨fun _ => rfl, (unsubscribe_all_residual env_all_ok st_A).2 (fun _ => rfl)⟩

/-- The data-model invariant `subscribed ⊆ cache.keys()`. -/
def cache_consistent (st : CMState) : Prop :=
  ∀ c ∈ st.subscribed, (st.cache c).isSome = true

/-- Lemma: `unsubscribe_all` never touches the cache. -/
lemma unsubscribe_all_cache (env : ProviderEnv) (st : CMState) :
    (unsubscribe_all env st).1.cache = st.cache := by
  unfold unsubscribe_all
  split <;> rfl

/-- A refresh preserves `subscribed ⊆ cache.keys()` for any provider
outcome: codes are only recorded for contracts cached during resolution,
and the cache only grows. -/
lemma update_with_strikes_cache_consistent (env : ProviderEnv) (st : CMState)
    (strikes : List ℤ) (t : String) (h : cache_consistent st) :
    cache_consistent (update_with_strikes env st strikes t).1 := by
  classical
  by_cases hne : (find_contracts_by_strikes env.directory t strikes st.cache).1 = []
  · rw [update_with_strikes_empty env st strikes t hne]
    intro c hc
    exact find_cache_monotone env.directory t strikes st.cache c (h c hc)
  · unfold update_with_strikes
    rw [if_neg hne]
    simp only []
    intro c hc
    set L := (find_contracts_by_strikes env.directory t strikes st.cache).1 with hL
    set T : Finset String := (L.map Contract.code).toFinset with hT
    set S := st.subscribed with hS
    have hc1 : c ∈ (if T \ S ≠ ∅ then
        subscribe_contracts env S (L.filter (fun k => k.code ∈ T \ S))
      else (S, [])).1 := by
      by_cases h2 : S \ T ≠ ∅
      · rw [if_pos h2] at hc
        exact mem_of_mem_unsubscribe_contracts env _ _ _ c hc
      · rwa [if_neg h2] at hc
    have hc2 : c ∈ S ∨ ∃ k ∈ L, k.code = c := by
      by_cases h3 : T \ S ≠ ∅
      · rw [if_pos h3] at hc1
        rcases mem_subscribe_contracts env S _ c hc1 with hcS | ⟨k, hk, hkc⟩
        · exact Or.inl hcS
        · exact Or.inr ⟨k, (List.mem_filter.1 hk).1, hkc⟩
      · rw [if_neg h3] at hc1
        exact Or.inl hc1
    rcases hc2 with hcS | ⟨k, hkL, rfl⟩
    · exact find_cache_monotone env.directory t strikes st.cache c (h c hcS)
    · exact find_mem_cached env.directory t strikes st.cache k hkL

/-- Claim C8, confirmed.  `subscribed ⊆ cache.keys()` holds initially and is
preserved by `update_subscriptions` and `unsubscribe_all` under every
provider behaviour, so it holds in every reachable state of the contract
manager. -/
theorem subscribed_subset_cache_keys :
    cache_consistent ⟨∅, fun _ => none⟩ ∧
      (∀ (env : ProviderEnv) (st : CMState) (price : ℚ) (N : ℕ) (t : String)
          (interval : ℤ), cache_consistent st →
        cache_consistent (update_subscriptions env st price N t interval).1) ∧
      (∀ (env : ProviderEnv) (st : CMState), cache_consistent st →
        cache_consistent (unsubscribe_all env st).1) := by
  refine ⟨?_, ?_, ?_⟩
  · intro c hc
    exact absurd hc (Finset.not_mem_empty c)
  · intro env st price N t interval h
    exact update_with_strikes_cache_consistent env st _ t h
  · intro env st h c hc
    rw [unsubscribe_all_cache]
    rw [unsubscribe_all_subscribed] at hc
    exact h c (Finset.mem_filter.1 hc).1

/-- Witness for C8 at a concrete state and refresh. -/
theorem subscribed_subset_cache_keys_witness :
    cache_consistent st_A ∧
      cache_consistent (update_subscriptions env_all_ok st_A 200 1 "call" 100).1 := by
  have hstA : cache_consistent st_A := by
    intro c hc
    have hcA : c = "A" := by simpa [st_A] using hc
    subst hcA
    rfl
  exact ⟨hstA,
    subscribed_subset_cache_keys.2.1 env_all_ok st_A 200 1 "call" 100 hstA⟩

/-- A well-formed raw tick (code and close present, nothing raises). -/
def tick_ok : Tick :=
  ⟨fun a => if a = "code" then some (Val.vstr "TXO18000C")
    else if a = "close" then some (Val.vnum 103) else none,
    fun _ => false⟩

/-- A connected sink whose `emit` raises. -/
def gw_emit_raises : GatewayEnv := ⟨Except.ok true, false⟩

def hstate0 : HandlerState := ⟨fun _ => none⟩

/-- Payload extracted from `tick_ok`. -/
def tick_payload : TickData :=
  { exchange := "TAIFEX", code := some (Val.vstr "TXO18000C"), datetime := none,
    open_ := none, high := none, low := none, close := some (Val.vnum 103),
    price := some (Val.vnum 103), volume := none, total_volume := none,
    timestamp := "t" }

/-- Claim C9, confirmed.  `handle_tick` returns normally on every raw tick,
sink behaviour and handler state: whenever the try-body raises (extraction
internals, the connectivity probe, or the emit), the outer handler catches
it and returns with the state unchanged, and when the body completes it
returns its result; moreover the raising case is reachable — with a sink
whose `emit` raises the body is an exception, yet `handle_tick` still
returns `(st, [])`. -/
theorem handle_tick_never_raises :
    (∀ (gw : GatewayEnv) (exchange : String) (tick : Tick) (now_iso : String)
        (now_ts : ℚ) (st : HandlerState),
      (∀ e, handle_tick_body gw exchange tick now_iso now_ts st = Except.error e →
        handle_tick gw exchange tick now_iso now_ts st = (st, [])) ∧
      (∀ r, handle_tick_body gw exchange tick now_iso now_ts st = Except.ok r →
        handle_tick gw exchange tick now_iso now_ts st = r)) ∧
      handle_tick_body gw_emit_raises "TAIFEX" tick_ok "t" 0 hstate0 =
        Except.error () ∧
      handle_tick gw_emit_raises "TAIFEX" tick_ok "t" 0 hstate0 = (hstate0, []) := by
  refine ⟨fun gw exchange tick now_iso now_ts st => ⟨fun e he => ?_, fun r hr => ?_⟩,
    rfl, rfl⟩
  · unfold handle_tick
    rw [he]
  · unfold handle_tick
    rw [hr]

/-- Witness for the C9 swallow clauses at the raising-emit sink. -/
theorem handle_tick_never_raises_witness :
    handle_tick_body gw_emit_raises "TAIFEX" tick_ok "t" 0 hstate0 =
        Except.error () ∧
      handle_tick gw_emit_raises "TAIFEX" tick_ok "t" 0 hstate0 = (hstate0, []) :=
  ⟨rfl, (handle_tick_never_raises.1 gw_emit_raises "TAIFEX" tick_ok "t" 0
      hstate0).1 () rfl⟩

/-- A payload returned by `_extract_tick_data` is the attribute record read
off the raw tick. -/
lemma extract_tick_data_some (exchange now_iso : String) (tick : Tick)
    (d : TickData) (h : extract_tick_data exchange now_iso tick = some d) :
    d = { exchange := exchange, code := tick.attrs "code",
          datetime := tick.attrs "datetime", open_ := tick.attrs "open",
          high := tick.attrs "high", low := tick.attrs "low",
          close := tick.attrs "close", price := tick.attrs "close",
          volume := tick.attrs "volume",
          total_volume := tick.attrs "total_volume",
          timestamp := now_iso } := by
  unfold extract_tick_data extract_tick_body safe_getattr at h
  by_cases hb1 : tick.attrRaises "code" = true
  · simp [hb1, Except.bind] at h
  by_cases hb2 : tick.attrRaises "datetime" = true
  · simp [hb1, hb2, Except.bind] at h
  by_cases hb3 : tick.attrRaises "open" = true
  · simp [hb1, hb2, hb3, Except.bind] at h
  by_cases hb4 : tick.attrRaises "high" = true
  · simp [hb1, hb2, hb3, hb4, Except.bind] at h
  by_cases hb5 : tick.attrRaises "low" = true
  · simp [hb1, hb2, hb3, hb4, hb5, Except.bind] at h
  by_cases hb6 : tick.attrRaises "close" = true
  · simp [hb1, hb2, hb3, hb4, hb5, hb6, Except.bind] at h
  by_cases hb7 : tick.attrRaises "volume" = true
  · simp [hb1, hb2, hb3, hb4, hb5, hb6, hb7, Except.bind] at h
  by_cases hb8 : tick.attrRaises "total_volume" = true
  · simp [hb1, hb2, hb3, hb4, hb5, hb6, hb7, hb8, Except.bind] at h
  simp only [hb1, hb2, hb3, hb4, hb5, hb6, hb7, hb8, Bool.false_eq_true,
    if_false, Except.bind, eq_self_iff_true, Bool.not_eq_true] at h
  by_cases h9 : truthy_opt (tick.attrs "code") = true
  · rw [if_pos h9] at h
    simp only [Option.some.injEq] at h
    exact h.symm
  · rw [if_neg h9] at h
    simp at h

/-- Claim C10, confirmed (implicit behaviour).  Every `market_tick` payload
built by `_extract_tick_data` carries a `price` field equal to its `close`
field — both read the `close` attribute of the raw tick — and when `close` is
absent both are null. -/
theorem tick_payload_price_eq_close (exchange now_iso : String) (tick : Tick)
    (d : TickData) (h : extract_tick_data exchange now_iso tick = some d) :
    d.price = d.close ∧ d.close = tick.attrs "close" ∧
      (tick.attrs "close" = none → d.price = none ∧ d.close = none) := by
  have hd := extract_tick_data_some exchange now_iso tick d h
  subst hd
  exact ⟨rfl, rfl, fun hnone => ⟨hnone, hnone⟩⟩

/-- Witness for C10 at a concrete tick with `close = 103`. -/
theorem tick_payload_price_eq_close_witness :
    extract_tick_data "TAIFEX" "t" tick_ok = some tick_payload ∧
      tick_payload.price = tick_payload.close :=
  ⟨rfl, (tick_payload_price_eq_close "TAIFEX" "t" tick_ok tick_payload rfl).1⟩

end DogbroIndex
